import Mathlib

/-!
# A shallow embedding of the go-sentry-api client core (`client.go`)

The Go functions `NewClient`, `hasError`, `decodeOrError`, `encodeOrError`,
`newRequest`, `doWithQuery`, `do` and `send` are translated into pure Lean
functions.  Effects become explicit data:

* a response body is a record that counts how often it was read and closed;
* the requests handed to the HTTP transport are collected in a list;
* a Go panic is a constructor of the result type `Completion`.

Library code the file calls (`encoding/json`, `net/url`, `net/http`) is not
part of `client.go`; it enters through the record `Env`.
-/

namespace Sentry

/-- Equality of Go results `(value, err)` is decidable. -/
instance instDecidableEqExcept {ε α : Type} [DecidableEq ε] [DecidableEq α] :
    DecidableEq (Except ε α)
  | .ok a, .ok b => if h : a = b then isTrue (by rw [h]) else isFalse (by intro h'; cases h'; exact h rfl)
  | .error a, .error b =>
    if h : a = b then isTrue (by rw [h]) else isFalse (by intro h'; cases h'; exact h rfl)
  | .ok _, .error _ => isFalse (by intro h; cases h)
  | .error _, .ok _ => isFalse (by intro h; cases h)

/-! ## Machine integers and durations -/

/-- Two's-complement wrap-around of a mathematical integer into Go's `int64`. -/
def wrapInt64 (x : Int) : Int :=
  (x + 9223372036854775808) % 18446744073709551616 - 9223372036854775808

/-- Go's `time.Duration`: a signed 64-bit count of nanoseconds. -/
abbrev Duration := Int

/-- The constant `time.Second`, in nanoseconds. -/
def Second : Duration := 1000000000

/-- The product `a * b` of two `time.Duration` values, computed in `int64`. -/
def Duration.mul (a b : Duration) : Duration := wrapInt64 (a * b)

/-- The conversion `time.Duration(n)` of a Go `int` (64 bits wide). -/
def Duration.ofInt (n : Int) : Duration := wrapInt64 n

/-- The constant `DefaultEndpoint` (client.go, line 16). -/
def DefaultEndpoint : String := "https://sentry.io/api/0/"

/-- The constant `DefaultTimeout = time.Duration(60) * time.Second` (client.go, line 18). -/
def DefaultTimeout : Duration := Duration.mul (Duration.ofInt 60) Second

/-! ## Errors -/

/-- Modelled from the spec: the declaration of `APIError` is not in `client.go`.
The spec describes it as holding the HTTP status code (always set, pre-populated
from the response status) and the additional fields of the remote error payload,
of which it names the message/detail field. -/
structure APIError where
  StatusCode : Int
  Detail : String
  deriving DecidableEq, Repr

/-- The values of Go's `error` interface that `client.go` can return, by origin. -/
inductive GoError where
  /-- An error made with `fmt.Errorf`. -/
  | errorf (msg : String)
  /-- An error returned by `ioutil.ReadAll` on a response body. -/
  | read (msg : String)
  /-- An error returned by `json.Marshal` or `json.Unmarshal`. -/
  | json (msg : String)
  /-- An error returned by `http.NewRequest`. -/
  | request (msg : String)
  /-- An error returned by `http.Client.Do`. -/
  | transport (msg : String)
  /-- The conversion `error(apierror)` of an `APIError` value. -/
  | api (e : APIError)
  deriving DecidableEq, Repr

/-! ## The client -/

/-- The part of `http.Client` that `NewClient` sets. -/
structure HTTPClient where
  Timeout : Duration
  deriving DecidableEq, Repr

/-- The struct `Client` (client.go, lines 24-28). -/
structure Client where
  AuthToken : String
  Endpoint : String
  HTTPClient : HTTPClient
  deriving DecidableEq, Repr

/-- The function `NewClient` (client.go, lines 32-60).  A nil pointer argument is
`none`; the Go result `(nil, err)` is `Except.error err`. -/
def NewClient (authtoken : String) (endpoint : Option String) (timeout : Option Int) :
    Except GoError Client :=
  let clientEndpoint : Except GoError String :=
    match endpoint with
    | none => .ok DefaultEndpoint
    | some e =>
      if e = "" then .error (.errorf "Endpoint can not be a empty string")
      else .ok e
  match clientEndpoint with
  | .error err => .error err
  | .ok clientEndpoint =>
    let clientTimeout : Duration :=
      match timeout with
      | none => DefaultTimeout
      | some t => Duration.mul (Duration.ofInt t) Second
    .ok { AuthToken := authtoken, Endpoint := clientEndpoint,
          HTTPClient := { Timeout := clientTimeout } }

/-! ## Responses -/

/-- The state of a response body (`io.ReadCloser`).  `data` is what is still
unread, `fault` is the error its `Read` reports (if any), `reads` counts the calls
of `ioutil.ReadAll` on it and `closes` the calls of `Close`. -/
structure Body where
  data : String
  fault : Option String
  reads : Nat
  closes : Nat
  deriving DecidableEq, Repr

/-- The call `ioutil.ReadAll(body)`: the bytes read or the read error, and the body
afterwards. -/
def Body.readAll (b : Body) : Except GoError String × Body :=
  match b.fault with
  | some msg => (.error (.read msg), { b with data := "", reads := b.reads + 1 })
  | none => (.ok b.data, { b with data := "", reads := b.reads + 1 })

/-- The call `body.Close()`. -/
def Body.close (b : Body) : Body :=
  { b with closes := b.closes + 1 }

/-- The fields of `http.Response` that `client.go` uses. -/
structure Response where
  StatusCode : Int
  Body : Body
  deriving DecidableEq, Repr

/-- The value the caller's output argument `out` points to, before or after
decoding; the value is represented by its rendering. -/
structure OutSlot where
  value : String
  deriving DecidableEq, Repr

/-! ## Requests -/

/-- The fields of `url.URL` that matter for a request target. -/
structure URL where
  Scheme : String
  Host : String
  Path : String
  RawQuery : String
  Fragment : String
  deriving DecidableEq, Repr

/-- Go's `http.Header`, as the list of its (canonical key, value) entries in the
order they were added. -/
abbrev Header := List (String × String)

/-- The call `h.Add(key, value)` for a key already in canonical form. -/
def Header.Add (h : Header) (key value : String) : Header :=
  h ++ [(key, value)]

/-- The call `h.Get(key)` for a key already in canonical form: the first value
stored under the key. -/
def Header.Get (h : Header) (key : String) : Option String :=
  (h.find? (fun kv => kv.1 == key)).map (fun kv => kv.2)

/-- The fields of `http.Request` that `client.go` sets or that `http.NewRequest`
fills in.  `Body` is `none` when the request has no body (a nil `Body`). -/
structure Request where
  Method : String
  URL : URL
  Header : Header
  Body : Option String
  Close : Bool
  deriving DecidableEq, Repr

/-- The interface `QueryReq`: a value that renders to a query string. -/
structure QueryReq where
  ToQueryString : String
  deriving DecidableEq, Repr

/-- A non-nil value passed as the `in interface{}` argument, given by what the
client can observe of it: the result of `json.Marshal` on it, and its view as a
`QueryReq` (`none` when its dynamic type does not implement `QueryReq`). -/
structure Input where
  marshal : Except GoError String
  asQueryReq : Option QueryReq

/-! ## The library environment -/

/-- The library functions `client.go` calls, as parameters of the model. -/
structure Env where
  /-- The check `validMethod` of `net/http`. -/
  validMethod : String → Bool
  /-- The URL parsing done by `http.NewRequest` (`url.Parse`). -/
  urlParse : String → Except GoError URL
  /-- The call `json.Unmarshal(body, &apierror)`: it fails, or it yields the value
  for the detail field (`none` when the payload has no such field).  Following the
  spec, decoding merges the payload into the additional fields of the `APIError`
  and leaves the pre-populated `StatusCode` alone. -/
  unmarshalAPIError : String → Except GoError (Option String)
  /-- The call `json.Unmarshal(body, &out)`: the error it returns and the state of
  the output slot afterwards. -/
  unmarshalOut : String → OutSlot → Option GoError × OutSlot
  /-- The call `c.HTTPClient.Do(req)`. -/
  roundTrip : HTTPClient → Request → Except GoError Response

/-- The function `http.NewRequest(method, url, body)`: an empty method means
`GET`, the method is validated, the URL is parsed, and the request starts with an
empty header and `Close = false`. -/
def httpNewRequest (env : Env) (method url : String) (body : Option String) :
    Except GoError Request :=
  let method := if method = "" then "GET" else method
  if env.validMethod method = false then
    .error (.request ("net/http: invalid method " ++ method))
  else
    match env.urlParse url with
    | .error err => .error err
    | .ok u => .ok { Method := method, URL := u, Header := [], Body := body, Close := false }

/-! ## Response decoding -/

/-- The method `hasError` (client.go, lines 62-81): the error returned (`none` for
nil) and the response body afterwards. -/
def hasError (env : Env) (response : Response) : Option GoError × Body :=
  if response.StatusCode > 299 ∨ response.StatusCode < 200 then
    let apierror : APIError := { StatusCode := response.StatusCode, Detail := "" }
    match response.Body.readAll with
    | (.error err, b) => (some err, b)
    | (.ok body, b) =>
      match env.unmarshalAPIError body with
      | .error err => (some err, b)
      | .ok detail =>
        let apierror := { apierror with Detail := detail.getD apierror.Detail }
        (some (.api apierror), b)
  else
    (none, response.Body)

/-- What `decodeOrError` leaves behind: the error returned, the caller's output
slot (`none` when `out` is nil) and the response body. -/
structure Decoded where
  err : Option GoError
  out : Option OutSlot
  body : Body
  deriving DecidableEq, Repr

/-- The method `decodeOrError` (client.go, lines 83-101).  The deferred
`response.Body.Close()` runs on every return that follows line 89. -/
def decodeOrError (env : Env) (response : Response) (out : Option OutSlot) : Decoded :=
  match hasError env response with
  | (some err, b) => { err := some err, out := out, body := b }
  | (none, b) =>
    match out with
    | some slot =>
      match b.readAll with
      | (.error err, b) => { err := some err, out := some slot, body := b.close }
      | (.ok body, b) =>
        match env.unmarshalOut body slot with
        | (some err, slot) => { err := some err, out := some slot, body := b.close }
        | (none, slot) => { err := none, out := some slot, body := b.close }
    | none => { err := none, out := none, body := b.close }

/-! ## Request construction and dispatch -/

/-- The method `encodeOrError` (client.go, lines 103-110), applied to a non-nil
input: the bytes the returned reader holds. -/
def encodeOrError (input : Input) : Except GoError String :=
  match input.marshal with
  | .error err => .error err
  | .ok bytedata => .ok bytedata

/-- The target string `c.Endpoint+endpoint+"/"` that `newRequest` passes to
`http.NewRequest` (client.go, line 124). -/
def requestTarget (c : Client) (endpoint : String) : String :=
  c.Endpoint ++ endpoint ++ "/"

/-- The method `newRequest` (client.go, lines 112-133).  A nil `in` is `none`. -/
def newRequest (env : Env) (c : Client) (method endpoint : String) (input : Option Input) :
    Except GoError Request :=
  let bodyreader : Except GoError (Option String) :=
    match input with
    | some i =>
      match encodeOrError i with
      | .error err => .error err
      | .ok newbodyreader => .ok (some newbodyreader)
    | none => .ok none
  match bodyreader with
  | .error err => .error err
  | .ok bodyreader =>
    match httpNewRequest env method (requestTarget c endpoint) bodyreader with
    | .error err => .error err
    | .ok req =>
      let req := { req with Header := req.Header.Add "Content-Type" "application/json" }
      let req := { req with Header := req.Header.Add "Authorization" ("Bearer " ++ c.AuthToken) }
      let req := { req with Close := true }
      .ok req

/-- What a call of `send`, `do` or `doWithQuery` leaves behind: the error
returned, the caller's output slot, the requests handed to `HTTPClient.Do`, the
response body (if a response was obtained) and the URLs written to the log. -/
structure Call where
  err : Option GoError
  out : Option OutSlot
  sent : List Request
  body : Option Body
  logged : List URL
  deriving DecidableEq, Repr

/-- How a Go call ends: it returns to its caller, or it panics. -/
inductive Completion (α : Type) where
  | returned (result : α)
  | panicked (reason : String)
  deriving DecidableEq, Repr

/-- The method `send` (client.go, lines 158-164). -/
def send (env : Env) (c : Client) (req : Request) (out : Option OutSlot) : Call :=
  match env.roundTrip c.HTTPClient req with
  | .error err => { err := some err, out := out, sent := [req], body := none, logged := [] }
  | .ok response =>
    let d := decodeOrError env response out
    { err := d.err, out := d.out, sent := [req], body := some d.body, logged := [] }

/-- The method `doWithQuery` (client.go, lines 135-142).  A nil `query` is `none`;
calling `ToQueryString` on it is a nil dereference. -/
def doWithQuery (env : Env) (c : Client) (method endpoint : String) (out : Option OutSlot)
    (input : Option Input) (query : Option QueryReq) : Completion Call :=
  match newRequest env c method endpoint input with
  | .error err =>
    .returned { err := some err, out := out, sent := [], body := none, logged := [] }
  | .ok request =>
    match query with
    | none => .panicked "invalid memory address or nil pointer dereference"
    | some q =>
      let request := { request with URL := { request.URL with RawQuery := q.ToQueryString } }
      .returned (send env c request out)

/-- The method `do` (client.go, lines 144-156); `do` is a reserved word of Lean.
The type assertion `in.(QueryReq)` has the one-result form, which panics when the
dynamic type of `in` does not implement `QueryReq`. -/
def doRequest (env : Env) (c : Client) (method endpoint : String) (out : Option OutSlot)
    (input : Option Input) : Completion Call :=
  match newRequest env c method endpoint input with
  | .error err =>
    .returned { err := some err, out := out, sent := [], body := none, logged := [] }
  | .ok request =>
    match input with
    | some i =>
      if method = "GET" then
        match i.asQueryReq with
        | none => .panicked "interface conversion: interface is not sentry.QueryReq: missing method ToQueryString"
        | some q =>
          let request := { request with URL := { request.URL with RawQuery := q.ToQueryString } }
          let r := send env c request out
          .returned { r with logged := [request.URL] }
      else .returned (send env c request out)
    | none => .returned (send env c request out)

/-! ## Measuring a request target -/

/-- The number of `/` characters at the end of a string. -/
def trailingSlashes (s : String) : Nat :=
  (s.data.reverse.takeWhile (fun ch => ch == '/')).length

/-! ## A concrete environment

A small stand-in for the libraries, used to run the model on concrete calls.  It
follows `net/url`, `net/http` and `encoding/json` on the inputs of the examples in
this file: absolute URLs of the form `scheme://host/path?query#fragment`, methods
that are HTTP tokens, and error payloads that are `{}` or a single `detail`
string. -/

/-- Cut a character list at the first occurrence of `sep` (which is dropped). -/
def cutAt (sep : Char) (cs : List Char) : List Char × List Char :=
  (cs.takeWhile (fun ch => ch != sep), (cs.dropWhile (fun ch => ch != sep)).drop 1)

/-- Split an absolute URL into its components. -/
def sampleUrlParse (s : String) : Except GoError URL :=
  let (rest, fragment) := cutAt '#' s.data
  let (rest, query) := cutAt '?' rest
  let (scheme, after) := cutAt ':' rest
  match after with
  | '/' :: '/' :: authority =>
    .ok { Scheme := String.mk scheme
          Host := String.mk (authority.takeWhile (fun ch => ch != '/'))
          Path := String.mk (authority.dropWhile (fun ch => ch != '/'))
          RawQuery := String.mk query
          Fragment := String.mk fragment }
  | _ => .error (.request "unsupported URL")

/-- A method is valid when it is a non-empty string of letters and digits. -/
def sampleValidMethod (m : String) : Bool :=
  m.data != [] && m.data.all Char.isAlphanum

/-- Decode an error payload: `{}` has no detail, `{"detail":"..."}` has one, and
anything else is rejected. -/
def sampleUnmarshalAPIError (body : String) : Except GoError (Option String) :=
  let opening := "\x7b\"detail\":\"".data
  let closing := "\"\x7d".data
  let cs := body.data
  if body = "\x7b\x7d" then .ok none
  else if cs.take opening.length = opening
      ∧ (cs.drop opening.length).reverse.take closing.length = closing.reverse
      ∧ opening.length + closing.length ≤ cs.length then
    let inner := ((cs.drop opening.length).reverse.drop closing.length).reverse
    if inner.all (fun ch => ch != '"' && ch != '\\') then .ok (some (String.mk inner))
    else .error (.json "invalid character in string literal")
  else .error (.json "invalid character looking for beginning of value")

/-- Decode a success payload: a body that opens a JSON array or object is stored
in the slot, anything else is rejected and leaves the slot as it was. -/
def sampleUnmarshalOut (body : String) (slot : OutSlot) : Option GoError × OutSlot :=
  match body.data with
  | '[' :: _ => (none, { value := body })
  | '\x7b' :: _ => (none, { value := body })
  | [] => (some (.json "unexpected end of JSON input"), slot)
  | _ => (some (.json "invalid character looking for beginning of value"), slot)

/-- A transport that answers `DELETE` with 204 and an empty body, and every other
request with 200 and an empty JSON list. -/
def sampleRoundTrip (_ : HTTPClient) (req : Request) : Except GoError Response :=
  if req.Method = "DELETE" then
    .ok { StatusCode := 204, Body := { data := "", fault := none, reads := 0, closes := 0 } }
  else
    .ok { StatusCode := 200, Body := { data := "[]", fault := none, reads := 0, closes := 0 } }

/-- The concrete environment. -/
def sampleEnv : Env where
  validMethod := sampleValidMethod
  urlParse := sampleUrlParse
  unmarshalAPIError := sampleUnmarshalAPIError
  unmarshalOut := sampleUnmarshalOut
  roundTrip := sampleRoundTrip

/-- The client `NewClient("abc", nil, nil)` returns. -/
def sampleClient : Client :=
  { AuthToken := "abc", Endpoint := DefaultEndpoint, HTTPClient := { Timeout := DefaultTimeout } }

/-- The client `NewClient("abc", nil, &n)` returns when `n` is 30. -/
def halfMinuteClient : Client :=
  { AuthToken := "abc", Endpoint := DefaultEndpoint, HTTPClient := { Timeout := 30000000000 } }

/-- A non-nil input that marshals to `{"name":"demo"}` and is not a `QueryReq`. -/
def demoInput : Input :=
  { marshal := .ok "\x7b\"name\":\"demo\"\x7d", asQueryReq := none }

/-- The request `newRequest` builds on `sampleClient` for the path `projects`. -/
def projectsRequest (method : String) (body : Option String) : Request :=
  { Method := method
    URL := { Scheme := "https", Host := "sentry.io", Path := "/api/0/projects/",
             RawQuery := "", Fragment := "" }
    Header := [("Content-Type", "application/json"), ("Authorization", "Bearer abc")]
    Body := body
    Close := true }

/-- A fresh response body holding `data`. -/
def freshBody (data : String) : Body :=
  { data := data, fault := none, reads := 0, closes := 0 }

/-- A fresh response body whose `Read` fails with `msg`. -/
def brokenBody (msg : String) : Body :=
  { data := "", fault := some msg, reads := 0, closes := 0 }

/-! ## Helper lemmas -/

theorem wrapInt64_seconds_iff (n : Int) :
    wrapInt64 (wrapInt64 n * 1000000000) = n * 1000000000 ↔
      -9223372036 ≤ n ∧ n ≤ 9223372036 := by
  unfold wrapInt64
  constructor
  · intro h
    omega
  · intro h
    omega

theorem hasError_success (env : Env) (response : Response)
    (h : 200 ≤ response.StatusCode ∧ response.StatusCode ≤ 299) :
    hasError env response = (none, response.Body) := by
  unfold hasError
  rw [if_neg (by omega)]

theorem hasError_failure (env : Env) (response : Response)
    (h : response.StatusCode < 200 ∨ 299 < response.StatusCode) :
    hasError env response =
      match response.Body.readAll with
      | (.error err, b) => (some err, b)
      | (.ok body, b) =>
        match env.unmarshalAPIError body with
        | .error err => (some err, b)
        | .ok detail => (some (.api ⟨response.StatusCode, detail.getD ""⟩), b) := by
  unfold hasError
  rw [if_pos (by omega)]

theorem hasError_failure_isSome (env : Env) (response : Response)
    (h : response.StatusCode < 200 ∨ 299 < response.StatusCode) :
    ∃ err, (hasError env response).1 = some err := by
  rw [hasError_failure env response h]
  rcases hr : response.Body.readAll with ⟨r, b⟩
  cases r with
  | error err => exact ⟨err, rfl⟩
  | ok body =>
    cases hu : env.unmarshalAPIError body with
    | error err => exact ⟨err, by simp [hu]⟩
    | ok detail =>
      exact ⟨.api ⟨response.StatusCode, detail.getD ""⟩, by simp [hu]⟩

theorem hasError_failure_body (env : Env) (response : Response)
    (h : response.StatusCode < 200 ∨ 299 < response.StatusCode) :
    (hasError env response).2 = response.Body.readAll.2 := by
  rw [hasError_failure env response h]
  rcases hr : response.Body.readAll with ⟨r, b⟩
  cases r with
  | error err => rfl
  | ok body =>
    cases hu : env.unmarshalAPIError body with
    | error err => simp [hu]
    | ok detail => simp [hu]

theorem decodeOrError_failure (env : Env) (response : Response) (out : Option OutSlot)
    (h : response.StatusCode < 200 ∨ 299 < response.StatusCode) :
    decodeOrError env response out =
      { err := (hasError env response).1, out := out, body := response.Body.readAll.2 } := by
  obtain ⟨err, herr⟩ := hasError_failure_isSome env response h
  have hb := hasError_failure_body env response h
  unfold decodeOrError
  rcases hh : hasError env response with ⟨e, b⟩
  rw [hh] at herr hb
  simp only at herr hb
  subst herr
  subst hb
  rfl

theorem trailingSlashes_append_slash (s : String) :
    trailingSlashes (s ++ "/") = trailingSlashes s + 1 := by
  unfold trailingSlashes
  have h : (s ++ "/").data = s.data ++ ['/'] := by
    rw [String.data_append]
  rw [h, List.reverse_append]
  simp [List.takeWhile]

theorem trailingSlashes_eq_zero_iff (s : String) :
    trailingSlashes s = 0 ↔ s.data.getLast? ≠ some '/' := by
  unfold trailingSlashes
  rw [List.getLast?_eq_head?_reverse]
  cases s.data.reverse with
  | nil => simp
  | cons a l =>
    by_cases ha : a = '/'
    · simp [List.takeWhile_cons, ha]
    · simp [List.takeWhile_cons, ha]

theorem send_sent (env : Env) (c : Client) (req : Request) (out : Option OutSlot) :
    (send env c req out).sent = [req] := by
  unfold send
  cases env.roundTrip c.HTTPClient req <;> rfl

theorem newRequest_ok (env : Env) (c : Client) (method endpoint : String)
    (input : Option Input) (req : Request)
    (h : newRequest env c method endpoint input = .ok req) :
    ∃ (u : URL) (body : Option String),
      env.urlParse (requestTarget c endpoint) = .ok u ∧
      (match input with
        | none => body = none
        | some i => ∃ bytes, i.marshal = .ok bytes ∧ body = some bytes) ∧
      req = { Method := if method = "" then "GET" else method, URL := u,
              Header := [("Content-Type", "application/json"),
                         ("Authorization", "Bearer " ++ c.AuthToken)],
              Body := body, Close := true } := by
  have hreq : ∀ body : Option String,
      (match httpNewRequest env method (requestTarget c endpoint) body with
        | .error err => (.error err : Except GoError Request)
        | .ok r =>
          .ok { r with
            Header := (r.Header.Add "Content-Type" "application/json").Add "Authorization"
              ("Bearer " ++ c.AuthToken),
            Close := true }) = .ok req →
      ∃ u, env.urlParse (requestTarget c endpoint) = .ok u ∧
        req = { Method := if method = "" then "GET" else method, URL := u,
                Header := [("Content-Type", "application/json"),
                           ("Authorization", "Bearer " ++ c.AuthToken)],
                Body := body, Close := true } := by
    intro body hb
    cases hv : env.validMethod (if method = "" then "GET" else method) with
    | false => simp [httpNewRequest, hv] at hb
    | true =>
      cases hu : env.urlParse (requestTarget c endpoint) with
      | error err => simp [httpNewRequest, hv, hu] at hb
      | ok u =>
        simp [httpNewRequest, hv, hu, Header.Add] at hb
        exact ⟨u, rfl, hb.symm⟩
  cases input with
  | none =>
    obtain ⟨u, hu, hr⟩ := hreq none h
    exact ⟨u, none, hu, rfl, hr⟩
  | some i =>
    cases hm : i.marshal with
    | error err => simp [newRequest, encodeOrError, hm] at h
    | ok bytes =>
      have h' := h
      simp only [newRequest, encodeOrError, hm] at h'
      obtain ⟨u, hu, hr⟩ := hreq (some bytes) h'
      exact ⟨u, some bytes, hu, ⟨bytes, hm, rfl⟩, hr⟩

/-! ## Client construction -/

/-- C1.  `NewClient` fails exactly when an endpoint is supplied and is the empty
string, and then there is no client.  With the endpoint omitted the client has
the default endpoint `https://sentry.io/api/0/`; with a non-empty endpoint it has
that endpoint; in both cases the auth token is stored unchanged, for every token
and every timeout. -/
theorem NewClient_endpoint_contract (authtoken : String) (endpoint : Option String)
    (timeout : Option Int) :
    ((∃ err, NewClient authtoken endpoint timeout = .error err) ↔ endpoint = some "") ∧
    (endpoint = some "" → ∀ c, NewClient authtoken endpoint timeout ≠ .ok c) ∧
    DefaultEndpoint = "https://sentry.io/api/0/" ∧
    (endpoint = none → ∃ c, NewClient authtoken endpoint timeout = .ok c ∧
      c.Endpoint = DefaultEndpoint ∧ c.AuthToken = authtoken) ∧
    (∀ e, endpoint = some e → e ≠ "" → ∃ c, NewClient authtoken endpoint timeout = .ok c ∧
      c.Endpoint = e ∧ c.AuthToken = authtoken) := by
  refine ⟨?_, ?_, rfl, ?_, ?_⟩
  · cases endpoint with
    | none => simp [NewClient]
    | some e =>
      by_cases he : e = ""
      · simp [NewClient, he]
      · simp [NewClient, he]
  · intro h c
    subst h
    simp [NewClient]
  · intro h
    subst h
    exact ⟨_, rfl, rfl, rfl⟩
  · intro e h he
    subst h
    simp [NewClient, he]

/-- C1, at the token `abc` with the endpoint `http://localhost:9000/api/0/` and a
timeout of five seconds. -/
theorem NewClient_endpoint_contract_witness :
    "http://localhost:9000/api/0/" ≠ "" ∧
    ∃ c, NewClient "abc" (some "http://localhost:9000/api/0/") (some 5) = .ok c ∧
      c.Endpoint = "http://localhost:9000/api/0/" ∧ c.AuthToken = "abc" :=
  ⟨by decide,
   (NewClient_endpoint_contract "abc" (some "http://localhost:9000/api/0/") (some 5)).2.2.2.2
     "http://localhost:9000/api/0/" rfl (by decide)⟩

/-- C7, as stated, fails: a timeout of 9223372037 seconds does not fit into 64-bit
nanoseconds, and the client gets a negative timeout instead. -/
theorem NewClient_timeout_overflows :
    NewClient "abc" none (some 9223372037) =
      .ok { AuthToken := "abc", Endpoint := DefaultEndpoint,
            HTTPClient := { Timeout := -9223372036709551616 } } ∧
    (-9223372036709551616 : Int) ≠ 9223372037 * Second := by
  decide

/-- C7, amended.  With the timeout omitted the client's timeout is exactly 60
seconds.  With a timeout `n` supplied it is `n * 10^9` nanoseconds computed in
`int64` with wrap-around, which is exactly `n` seconds if and only if
`-9223372036 ≤ n ≤ 9223372036`. -/
theorem NewClient_timeout (authtoken : String) (endpoint : Option String)
    (timeout : Option Int) (c : Client)
    (h : NewClient authtoken endpoint timeout = .ok c) :
    (timeout = none → c.HTTPClient.Timeout = 60 * Second) ∧
    (∀ n, timeout = some n →
      c.HTTPClient.Timeout = wrapInt64 (wrapInt64 n * 1000000000) ∧
      (c.HTTPClient.Timeout = n * Second ↔ -9223372036 ≤ n ∧ n ≤ 9223372036)) := by
  have ht : c.HTTPClient.Timeout =
      timeout.elim DefaultTimeout (fun t => Duration.mul (Duration.ofInt t) Second) := by
    cases endpoint with
    | none =>
      simp only [NewClient, Except.ok.injEq] at h
      rw [← h]
      cases timeout <;> rfl
    | some e =>
      by_cases he : e = ""
      · simp [NewClient, he] at h
      · simp only [NewClient, he, if_false, Except.ok.injEq] at h
        rw [← h]
        cases timeout <;> rfl
  constructor
  · intro hn
    subst hn
    rw [ht]
    decide
  · intro n hn
    subst hn
    simp only [Option.elim, Duration.mul, Duration.ofInt, Second] at ht
    refine ⟨ht, ?_⟩
    rw [ht]
    exact wrapInt64_seconds_iff n

/-- C7 amended, at the default endpoint with a timeout of 30 seconds. -/
theorem NewClient_timeout_witness :
    NewClient "abc" none (some 30) = .ok halfMinuteClient ∧
    halfMinuteClient.HTTPClient.Timeout = wrapInt64 (wrapInt64 30 * 1000000000) ∧
    (halfMinuteClient.HTTPClient.Timeout = 30 * Second ↔
      -9223372036 ≤ (30 : Int) ∧ (30 : Int) ≤ 9223372036) :=
  ⟨by decide,
   (NewClient_timeout "abc" none (some 30) halfMinuteClient (by decide)).2 30 rfl⟩

/-! ## Response decoding -/

/-- C6.  Status classification: `hasError` returns no error if and only if the
status code lies in `[200,299]`; 200 and 299 are successes, 199 and 300 are
failures; and on the success side the response body is left as it was (it is not
read). -/
theorem hasError_classification (env : Env) (response : Response) :
    ((hasError env response).1 = none ↔
      200 ≤ response.StatusCode ∧ response.StatusCode ≤ 299) ∧
    (200 ≤ response.StatusCode ∧ response.StatusCode ≤ 299 →
      (hasError env response).2 = response.Body ∧
      (hasError env response).2.reads = response.Body.reads) ∧
    (∀ b : Body, (hasError env ⟨200, b⟩).1 = none ∧ (hasError env ⟨299, b⟩).1 = none ∧
      (hasError env ⟨199, b⟩).1 ≠ none ∧ (hasError env ⟨300, b⟩).1 ≠ none) := by
  have key : ∀ r : Response, (hasError env r).1 = none ↔
      200 ≤ r.StatusCode ∧ r.StatusCode ≤ 299 := by
    intro r
    constructor
    · intro hnone
      by_contra hcon
      obtain ⟨err, herr⟩ := hasError_failure_isSome env r (by omega)
      rw [herr] at hnone
      cases hnone
    · intro hs
      rw [hasError_success env r hs]
  refine ⟨key response, ?_, ?_⟩
  · intro hs
    rw [hasError_success env response hs]
    exact ⟨rfl, rfl⟩
  · intro b
    refine ⟨(key ⟨200, b⟩).2 ⟨by simp, by simp⟩, (key ⟨299, b⟩).2 ⟨by simp, by simp⟩, ?_, ?_⟩
    · intro hnone
      have := (key ⟨199, b⟩).1 hnone
      simp at this
    · intro hnone
      have := (key ⟨300, b⟩).1 hnone
      simp at this

/-- C6, at a 204 response whose body would fail to read. -/
theorem hasError_classification_witness :
    ((200 : Int) ≤ 204 ∧ (204 : Int) ≤ 299) ∧
    (hasError sampleEnv ⟨204, brokenBody "connection reset"⟩).2 = brokenBody "connection reset" ∧
    (hasError sampleEnv ⟨204, brokenBody "connection reset"⟩).2.reads =
      (brokenBody "connection reset").reads :=
  ⟨⟨by decide, by decide⟩,
   (hasError_classification sampleEnv ⟨204, brokenBody "connection reset"⟩).2.1
     ⟨by decide, by decide⟩⟩

/-- C2, as stated, fails: for a 500 response whose body cannot be read, and for a
502 response whose body is not JSON, `decodeOrError` returns the read error or the
JSON error, which is not an `APIError`. -/
theorem decodeOrError_non2xx_not_always_APIError :
    (decodeOrError sampleEnv ⟨500, brokenBody "unexpected EOF"⟩ none).err =
      some (.read "unexpected EOF") ∧
    (decodeOrError sampleEnv ⟨502, freshBody "<html>Bad Gateway</html>"⟩ none).err =
      some (.json "invalid character looking for beginning of value") ∧
    (∀ e : APIError,
      (decodeOrError sampleEnv ⟨500, brokenBody "unexpected EOF"⟩ none).err ≠ some (.api e)) := by
  refine ⟨by decide, by decide, ?_⟩
  intro e h
  have h' : (decodeOrError sampleEnv ⟨500, brokenBody "unexpected EOF"⟩ none).err =
      some (.read "unexpected EOF") := by decide
  rw [h'] at h
  cases h

/-- C2, amended.  For every response whose status code is outside `[200,299]`,
`decodeOrError` leaves the caller's output slot as it was and returns an error.
When the body can be read and decodes as an error payload, that error is an
`APIError` whose `StatusCode` equals the response's status code; when reading the
body fails the read error is returned, and when decoding it fails the decoding
error is returned. -/
theorem decodeOrError_non2xx (env : Env) (response : Response) (out : Option OutSlot)
    (h : response.StatusCode < 200 ∨ 299 < response.StatusCode) :
    (decodeOrError env response out).out = out ∧
    (∃ err, (decodeOrError env response out).err = some err) ∧
    (∀ detail, response.Body.fault = none →
      env.unmarshalAPIError response.Body.data = .ok detail →
      ∃ e : APIError, (decodeOrError env response out).err = some (.api e) ∧
        e.StatusCode = response.StatusCode ∧ e.Detail = detail.getD "") ∧
    (∀ msg, response.Body.fault = some msg →
      (decodeOrError env response out).err = some (.read msg)) ∧
    (∀ err, response.Body.fault = none →
      env.unmarshalAPIError response.Body.data = .error err →
      (decodeOrError env response out).err = some err) := by
  rw [decodeOrError_failure env response out h]
  refine ⟨rfl, hasError_failure_isSome env response h, ?_, ?_, ?_⟩
  · intro detail hf hu
    refine ⟨⟨response.StatusCode, detail.getD ""⟩, ?_, rfl, rfl⟩
    simp only [hasError_failure env response h, Body.readAll, hf, hu]
  · intro msg hf
    simp only [hasError_failure env response h, Body.readAll, hf]
  · intro err hf hu
    simp only [hasError_failure env response h, Body.readAll, hf, hu]

/-- C2 amended, at the 400 response with body `{"detail":"name already exists"}`. -/
theorem decodeOrError_non2xx_witness :
    ((400 : Int) < 200 ∨ (299 : Int) < 400) ∧
    (freshBody "\x7b\"detail\":\"name already exists\"\x7d").fault = none ∧
    sampleEnv.unmarshalAPIError "\x7b\"detail\":\"name already exists\"\x7d" =
      .ok (some "name already exists") ∧
    ∃ e : APIError,
      (decodeOrError sampleEnv
        ⟨400, freshBody "\x7b\"detail\":\"name already exists\"\x7d"⟩ (some ⟨""⟩)).err =
        some (.api e) ∧
      e.StatusCode = 400 ∧ e.Detail = "name already exists" :=
  ⟨Or.inr (by decide), rfl, by decide,
   (decodeOrError_non2xx sampleEnv
     ⟨400, freshBody "\x7b\"detail\":\"name already exists\"\x7d"⟩ (some ⟨""⟩)
     (Or.inr (by decide))).2.2.1 (some "name already exists") rfl (by decide)⟩

/-- C9.  For every response with a status code in `[200,299]` and an absent output
slot, `decodeOrError` returns no error without reading the body, whatever the body
holds: the body is only closed. -/
theorem decodeOrError_success_without_slot (env : Env) (response : Response)
    (h : 200 ≤ response.StatusCode ∧ response.StatusCode ≤ 299) :
    decodeOrError env response none =
      { err := none, out := none, body := response.Body.close } ∧
    (decodeOrError env response none).err = none ∧
    (decodeOrError env response none).body.reads = response.Body.reads ∧
    (decodeOrError env response none).body.data = response.Body.data := by
  have hd : decodeOrError env response none =
      { err := none, out := none, body := response.Body.close } := by
    unfold decodeOrError
    rw [hasError_success env response h]
  rw [hd]
  exact ⟨rfl, rfl, rfl, rfl⟩

/-- C9, at a 204 response whose body cannot be read. -/
theorem decodeOrError_success_without_slot_witness :
    ((200 : Int) ≤ 204 ∧ (204 : Int) ≤ 299) ∧
    decodeOrError sampleEnv ⟨204, brokenBody "connection reset"⟩ none =
      { err := none, out := none, body := (brokenBody "connection reset").close } ∧
    (decodeOrError sampleEnv ⟨204, brokenBody "connection reset"⟩ none).err = none ∧
    (decodeOrError sampleEnv ⟨204, brokenBody "connection reset"⟩ none).body.reads =
      (brokenBody "connection reset").reads ∧
    (decodeOrError sampleEnv ⟨204, brokenBody "connection reset"⟩ none).body.data =
      (brokenBody "connection reset").data :=
  ⟨⟨by decide, by decide⟩,
   decodeOrError_success_without_slot sampleEnv ⟨204, brokenBody "connection reset"⟩
     ⟨by decide, by decide⟩⟩

/-- C4, at the failing input: for a 404 response with body `{"detail":"not found"}`
`decodeOrError` returns the `APIError` and the body has been read but closed zero
times, while a 200 response with the same output slot is closed once. -/
theorem decodeOrError_non2xx_body_left_open :
    decodeOrError sampleEnv ⟨404, freshBody "\x7b\"detail\":\"not found\"\x7d"⟩ (some ⟨""⟩) =
      { err := some (.api ⟨404, "not found"⟩), out := some ⟨""⟩,
        body := { data := "", fault := none, reads := 1, closes := 0 } } ∧
    (decodeOrError sampleEnv ⟨200, freshBody "[]"⟩ (some ⟨""⟩)).body.closes = 1 := by
  decide

/-! ## Request construction -/

/-- C5.  Whenever `newRequest` succeeds, the request was made from the target
`Endpoint + path + "/"`, its Content-Type header is `application/json`, its
Authorization header is `Bearer ` followed by the client's auth token, it is
marked non-reusable (`Close = true`), and it carries a body if and only if the
input is non-nil.  This holds with and without an input. -/
theorem newRequest_shape (env : Env) (c : Client) (method path : String)
    (input : Option Input) (req : Request)
    (h : newRequest env c method path input = .ok req) :
    env.urlParse (c.Endpoint ++ path ++ "/") = .ok req.URL ∧
    req.Header.Get "Content-Type" = some "application/json" ∧
    req.Header.Get "Authorization" = some ("Bearer " ++ c.AuthToken) ∧
    req.Header = [("Content-Type", "application/json"),
                  ("Authorization", "Bearer " ++ c.AuthToken)] ∧
    req.Close = true ∧
    (req.Body ≠ none ↔ input ≠ none) := by
  obtain ⟨u, body, hu, hbody, hreq⟩ := newRequest_ok env c method path input req h
  subst hreq
  refine ⟨hu, ?_, ?_, rfl, rfl, ?_⟩
  · simp [Header.Get, List.find?]
  · simp [Header.Get, List.find?]
  · cases input with
    | none =>
      simp only at hbody
      simp [hbody]
    | some i =>
      obtain ⟨bytes, _, hb⟩ := hbody
      simp [hb]

/-- C5, at `POST projects` with the input `{"name":"demo"}` on the default client. -/
theorem newRequest_shape_witness :
    newRequest sampleEnv sampleClient "POST" "projects" (some demoInput) =
      .ok (projectsRequest "POST" (some "\x7b\"name\":\"demo\"\x7d")) ∧
    sampleEnv.urlParse (sampleClient.Endpoint ++ "projects" ++ "/") =
      .ok (projectsRequest "POST" (some "\x7b\"name\":\"demo\"\x7d")).URL ∧
    (projectsRequest "POST" (some "\x7b\"name\":\"demo\"\x7d")).Header.Get "Content-Type" =
      some "application/json" ∧
    (projectsRequest "POST" (some "\x7b\"name\":\"demo\"\x7d")).Header.Get "Authorization" =
      some ("Bearer " ++ sampleClient.AuthToken) ∧
    (projectsRequest "POST" (some "\x7b\"name\":\"demo\"\x7d")).Header =
      [("Content-Type", "application/json"),
       ("Authorization", "Bearer " ++ sampleClient.AuthToken)] ∧
    (projectsRequest "POST" (some "\x7b\"name\":\"demo\"\x7d")).Close = true ∧
    ((projectsRequest "POST" (some "\x7b\"name\":\"demo\"\x7d")).Body ≠ none ↔
      some demoInput ≠ none) :=
  ⟨by decide,
   newRequest_shape sampleEnv sampleClient "POST" "projects" (some demoInput)
     (projectsRequest "POST" (some "\x7b\"name\":\"demo\"\x7d")) (by decide)⟩

/-- C3, as stated, fails: for the path `projects/` the target is
`https://sentry.io/api/0/projects//`, which ends with two `/`, while the path
`projects` gives a target that ends with one. -/
theorem newRequest_trailing_slash_not_normalised :
    newRequest sampleEnv sampleClient "GET" "projects/" none =
      .ok ⟨"GET", ⟨"https", "sentry.io", "/api/0/projects//", "", ""⟩,
        [("Content-Type", "application/json"), ("Authorization", "Bearer abc")], none, true⟩ ∧
    requestTarget sampleClient "projects/" = "https://sentry.io/api/0/projects//" ∧
    trailingSlashes (requestTarget sampleClient "projects/") = 2 ∧
    trailingSlashes (requestTarget sampleClient "projects") = 1 := by
  decide

/-- C3, amended.  For every request built by `newRequest` the target is
`Endpoint + path + "/"`; it ends with exactly one more `/` than `Endpoint + path`
does, so it ends with exactly one `/` if and only if `Endpoint + path` does not end
with `/`. -/
theorem newRequest_target_trailing_slash (env : Env) (c : Client) (method path : String)
    (input : Option Input) (req : Request)
    (h : newRequest env c method path input = .ok req) :
    env.urlParse (requestTarget c path) = .ok req.URL ∧
    requestTarget c path = c.Endpoint ++ path ++ "/" ∧
    trailingSlashes (requestTarget c path) = trailingSlashes (c.Endpoint ++ path) + 1 ∧
    (trailingSlashes (requestTarget c path) = 1 ↔
      (c.Endpoint ++ path).data.getLast? ≠ some '/') := by
  obtain ⟨u, body, hu, _, hreq⟩ := newRequest_ok env c method path input req h
  subst hreq
  refine ⟨hu, rfl, trailingSlashes_append_slash _, ?_⟩
  rw [← trailingSlashes_eq_zero_iff]
  unfold requestTarget
  rw [trailingSlashes_append_slash]
  omega

/-- C3 amended, at `GET projects` on the default client. -/
theorem newRequest_target_trailing_slash_witness :
    newRequest sampleEnv sampleClient "GET" "projects" none = .ok (projectsRequest "GET" none) ∧
    sampleEnv.urlParse (requestTarget sampleClient "projects") =
      .ok (projectsRequest "GET" none).URL ∧
    requestTarget sampleClient "projects" = sampleClient.Endpoint ++ "projects" ++ "/" ∧
    trailingSlashes (requestTarget sampleClient "projects") =
      trailingSlashes (sampleClient.Endpoint ++ "projects") + 1 ∧
    (trailingSlashes (requestTarget sampleClient "projects") = 1 ↔
      (sampleClient.Endpoint ++ "projects").data.getLast? ≠ some '/') :=
  ⟨by decide,
   newRequest_target_trailing_slash sampleEnv sampleClient "GET" "projects" none
     (projectsRequest "GET" none) (by decide)⟩

/-! ## Dispatch -/

/-- C8.  When `newRequest` succeeds with a request `req`, `doWithQuery` sends
exactly one request, which has `RawQuery = query.ToQueryString()` and the same
method, scheme, host, path, fragment, headers, `Close` flag and body as `req`, and
returns what `send` returns for it.  When `newRequest` fails, that error is
returned and nothing is sent. -/
theorem doWithQuery_frame (env : Env) (c : Client) (method path : String)
    (out : Option OutSlot) (input : Option Input) (q : QueryReq) (query : Option QueryReq) :
    (∀ req, newRequest env c method path input = .ok req →
      ∃ (r : Call) (sentReq : Request),
        doWithQuery env c method path out input (some q) = .returned r ∧
        r = send env c sentReq out ∧
        r.sent = [sentReq] ∧
        sentReq.URL.RawQuery = q.ToQueryString ∧
        sentReq.Method = req.Method ∧
        sentReq.URL.Scheme = req.URL.Scheme ∧
        sentReq.URL.Host = req.URL.Host ∧
        sentReq.URL.Path = req.URL.Path ∧
        sentReq.URL.Fragment = req.URL.Fragment ∧
        sentReq.Header = req.Header ∧
        sentReq.Close = req.Close ∧
        sentReq.Body = req.Body) ∧
    (∀ err, newRequest env c method path input = .error err →
      doWithQuery env c method path out input query =
        .returned { err := some err, out := out, sent := [], body := none, logged := [] }) := by
  constructor
  · intro req h
    refine ⟨send env c { req with URL := { req.URL with RawQuery := q.ToQueryString } } out,
      { req with URL := { req.URL with RawQuery := q.ToQueryString } }, ?_, rfl,
      send_sent env c _ out, rfl, rfl, rfl, rfl, rfl, rfl, rfl, rfl, rfl⟩
    unfold doWithQuery
    rw [h]
  · intro err h
    unfold doWithQuery
    rw [h]

/-- C8, at `GET projects` with the query `query=demo` on the default client. -/
theorem doWithQuery_frame_witness :
    newRequest sampleEnv sampleClient "GET" "projects" none = .ok (projectsRequest "GET" none) ∧
    (∃ (r : Call) (sentReq : Request),
      doWithQuery sampleEnv sampleClient "GET" "projects" (some ⟨""⟩) none
        (some ⟨"query=demo"⟩) = .returned r ∧
      r = send sampleEnv sampleClient sentReq (some ⟨""⟩) ∧
      r.sent = [sentReq] ∧
      sentReq.URL.RawQuery = "query=demo" ∧
      sentReq.Method = "GET" ∧
      sentReq.URL.Scheme = "https" ∧
      sentReq.URL.Host = "sentry.io" ∧
      sentReq.URL.Path = "/api/0/projects/" ∧
      sentReq.URL.Fragment = "" ∧
      sentReq.Header = [("Content-Type", "application/json"), ("Authorization", "Bearer abc")] ∧
      sentReq.Close = true ∧
      sentReq.Body = none) :=
  ⟨by decide,
   (doWithQuery_frame sampleEnv sampleClient "GET" "projects" (some ⟨""⟩) none
     ⟨"query=demo"⟩ none).1 (projectsRequest "GET" none) (by decide)⟩

/-- C10, at the failing input: `do("GET", "projects", nil, in)` with a non-nil `in`
that marshals to `{"a":"b"}` and does not implement `QueryReq` panics on the type
assertion instead of returning; the same input with `POST` returns. -/
theorem doRequest_GET_non_QueryReq_panics :
    doRequest sampleEnv sampleClient "GET" "projects" none
      (some ⟨.ok "\x7b\"a\":\"b\"\x7d", none⟩) =
      .panicked "interface conversion: interface is not sentry.QueryReq: missing method ToQueryString" ∧
    (∃ r, doRequest sampleEnv sampleClient "POST" "projects" none
      (some ⟨.ok "\x7b\"a\":\"b\"\x7d", none⟩) = .returned r) := by
  refine ⟨by decide, ⟨_, rfl⟩⟩

end Sentry
